import Mathlib

/-!
Verification of the TSO (timestamp oracle) allocator from
`server/tso/tso.go`.

Modelling conventions:
* `time.Time` and `time.Duration` values are modelled as `Int` nanoseconds
  (the Go code compares times through `typeutil.SubTimeByWallClock`, which
  is exactly `after.UnixNano() - before.UnixNano()`).  The Go zero time
  `typeutil.ZeroTime` is modelled as the constant `zeroTime`; every
  timestamp the oracle publishes in a live term is strictly positive, so
  the sentinel test `physical == typeutil.ZeroTime` is faithfully the
  equality test against `zeroTime`.
* The values handled by the oracle (milliseconds since the Unix epoch,
  logical counters below 2^18 plus transient overshoot) are far below
  2^63, so `int64` arithmetic never wraps on the inputs of interest and is
  modelled with unbounded `Int`.
* The etcd transaction in `saveTimestamp` (a `LeaderTxn` conditional put)
  either commits — the leader-condition held and there was no IO error —
  or fails with no observable change.  Both failure modes (`err != nil`
  and `!resp.Succeeded`) return an error without touching state, so they
  are collapsed into a single boolean environment input `txnOk`.
* `failpoint.Inject` hooks, logging and metrics counters have no effect on
  the oracle state and are omitted.
-/

namespace Tso

/-- `time.Millisecond` in nanoseconds. -/
def millisecond : Int := 1000000

/-- `UpdateTimestampStep = 50 * time.Millisecond` (tso.go line 37). -/
def UpdateTimestampStep : Int := 50 * millisecond

/-- `updateTimestampGuard = time.Millisecond` (tso.go line 38). -/
def updateTimestampGuard : Int := millisecond

/-- `maxLogical = int64(1 << 18)` (tso.go line 39). -/
def maxLogical : Int := 262144

/-- The Go zero time `typeutil.ZeroTime` (`time.Time{}`), used as the
sentinel physical value by `ResetTimestamp`. -/
def zeroTime : Int := 0

/-- `maxRetryCount = 10` (tso.go line 279). -/
def maxRetryCount : Nat := 10

/-- The `atomicObject` snapshot: `physical time.Time; logical int64`
(tso.go lines 82-85). -/
structure atomicObject where
  physical : Int
  logical : Int
deriving DecidableEq, Repr

/-- Modelled from the spec: the external `election.Leadership` handle
(its implementation is not part of this repository).  `check` is the
current result of its best-effort `Check()` predicate. -/
structure Leadership where
  check : Bool
deriving DecidableEq, Repr

/-- The fields of `TimestampOracle` that the claims are about, together
with the durable store content it interacts with:
* `leadership` — the `atomic.Value` holding `*election.Leadership`
  (`none` models both "never stored" and the `nil` stored by
  `ResetTimestamp`);
* `ts` — the `unsafe.Pointer` to the current `atomicObject`
  (`none` models the nil pointer before the first publish);
* `lastSavedTime` — the `atomic.Value` mirror of the last saved time
  (`none` until the first successful `saveTimestamp`);
* `saved` — the durable value at `<rootPath>/timestamp`
  (`none` when the key is absent);
* `saveInterval`, `maxResetTSGap` — configuration. -/
structure TSOState where
  leadership : Option Leadership
  ts : Option atomicObject
  lastSavedTime : Option Int
  saved : Option Int
  saveInterval : Int
  maxResetTSGap : Int
deriving DecidableEq, Repr

/-- Modelled from the spec: `Leadership.Check()` on the handle read by
`getLeadership`; a cleared (nil) handle is not the leader ("Subsequent
Request Allocator calls will observe not leader"). -/
def leadershipCheck (st : TSOState) : Bool :=
  match st.leadership with
  | none => false
  | some l => l.check

/-- A `pdpb.Timestamp` response: `Physical` in milliseconds, `Logical`. -/
structure Timestamp where
  physical : Int
  logical : Int
deriving DecidableEq, Repr

/-- Modelled from the spec: `tsoutil.ParseTS` unpacks the 64-bit wire
form `T = (physical_ms << 18) | logical`; `ResetUserTimestamp` keeps
only the physical part, as a wall-clock instant (here: nanoseconds). -/
def parseTSPhysical (tso : Nat) : Int :=
  ((tso / 262144 : Nat) : Int) * millisecond

/-- `loadTimestamp` (tso.go lines 91-100): reads the durable key; an
absent key yields `typeutil.ZeroTime` and no error.  `loadOk` models
whether the etcd read itself succeeded. -/
def loadTimestamp (st : TSOState) (loadOk : Bool) : Except String Int :=
  if loadOk then .ok (st.saved.getD zeroTime) else .error "load timestamp error"

/-- `saveTimestamp` (tso.go lines 104-122): a leader-conditional durable
put of `ts`; on success it also stores the in-memory mirror
`lastSavedTime`.  `txnOk` models "the transaction committed with the
leader condition satisfied"; on failure nothing changes. -/
def saveTimestamp (st : TSOState) (ts : Int) (txnOk : Bool) :
    Except String TSOState :=
  if txnOk then
    .ok { st with saved := some ts, lastSavedTime := some ts }
  else
    .error "save timestamp failed, maybe we lost leader"

/-- `SyncTimestamp` (tso.go lines 125-166).  Environment inputs: the new
leadership handle, the wall clock `now`, and the outcomes of the etcd
read (`loadOk`) and of the conditional save (`saveOk`). -/
def SyncTimestamp (st : TSOState) (leadership : Leadership) (now : Int)
    (loadOk saveOk : Bool) : TSOState × Except String Unit :=
  let st := { st with leadership := some leadership }
  match loadTimestamp st loadOk with
  | .error e => (st, .error e)
  | .ok last =>
    let next := now
    let next :=
      if next - last < updateTimestampGuard then last + updateTimestampGuard
      else next
    let save := next + st.saveInterval
    match saveTimestamp st save saveOk with
    | .error e => (st, .error e)
    | .ok st' => ({ st' with ts := some ⟨next, 0⟩ }, .ok ())

/-- `ResetUserTimestamp` (tso.go lines 169-200).  `saveOk` is the save
transaction outcome; `casOk` models whether the snapshot pointer still
equals `prev` when `CompareAndSwapPointer` runs (it can only be `false`
under concurrent interference).  The Go code ignores the CAS result and
returns `nil` either way.  The result is `none` when the Go code would
dereference a nil snapshot pointer. -/
def ResetUserTimestamp (st : TSOState) (tso : Nat) (saveOk casOk : Bool) :
    Option (TSOState × Except String Unit) :=
  if leadershipCheck st = false then
    some (st, .error "Setup timestamp failed, lease expired")
  else
    match st.ts with
    | none => none
    | some prev =>
      let physical := parseTSPhysical tso
      let next := physical + millisecond
      if next - prev.physical ≤ 3 * updateTimestampGuard then
        some (st, .error "the specified ts too small than now")
      else if next - prev.physical ≥ st.maxResetTSGap then
        some (st, .error "the specified ts too large than now")
      else
        let save := next + st.saveInterval
        match saveTimestamp st save saveOk with
        | .error e => some (st, .error e)
        | .ok st' =>
          if casOk then some ({ st' with ts := some ⟨next, 0⟩ }, .ok ())
          else some (st', .ok ())

/-- The tail of `UpdateTimestamp` once `next` has been chosen (tso.go
lines 249-267): extend the save point when the window is too small, then
publish `(physical = next, logical = 0)`.  `lastSaved` is the value of
the in-memory mirror (the Go code reads it through an unguarded type
assertion, handled by the caller). -/
def updatePublish (st : TSOState) (lastSaved next : Int) (saveOk : Bool) :
    TSOState × Except String Unit :=
  if lastSaved - next ≤ updateTimestampGuard then
    match saveTimestamp st (next + st.saveInterval) saveOk with
    | .error e => (st, .error e)
    | .ok st' => ({ st' with ts := some ⟨next, 0⟩ }, .ok ())
  else
    ({ st with ts := some ⟨next, 0⟩ }, .ok ())

/-- `UpdateTimestamp` (tso.go lines 213-268).  The result is `none` when
the Go code would crash: dereferencing a nil `t.ts` pointer (line 223)
or the failing type assertion `t.lastSavedTime.Load().(time.Time)` on a
nil `atomic.Value` (line 251). -/
def UpdateTimestamp (st : TSOState) (now : Int) (saveOk : Bool) :
    Option (TSOState × Except String Unit) :=
  match st.ts with
  | none => none
  | some prev =>
    let jetLag := now - prev.physical
    let prevLogical := prev.logical
    if jetLag > updateTimestampGuard then
      match st.lastSavedTime with
      | none => none
      | some lastSaved => some (updatePublish st lastSaved now saveOk)
    else if prevLogical > maxLogical / 2 then
      match st.lastSavedTime with
      | none => none
      | some lastSaved =>
        some (updatePublish st lastSaved (prev.physical + millisecond) saveOk)
    else
      some (st, .ok ())

/-- `ResetTimestamp` (tso.go lines 271-277): publish the zero-physical
sentinel snapshot and clear the leadership handle. -/
def ResetTimestamp (st : TSOState) : TSOState :=
  { st with ts := some ⟨zeroTime, 0⟩, leadership := none }

/-- The possible outcomes of one iteration of the `GetRespTS` retry loop
(tso.go lines 293-321). -/
inductive TSOutcome where
  /-- `return resp, nil` -/
  | ok (resp : Timestamp)
  /-- `"tso count should be positive"` -/
  | errCount
  /-- `"can not get timestamp, may be not leader"` -/
  | errNotLeader
  /-- `"alloc timestamp failed, lease expired"` -/
  | errLease
  /-- `"can not get timestamp"` after exhausting the retries -/
  | errExhausted
  /-- sentinel snapshot but still leader: sleep 200 ms and retry -/
  | retrySyncWait
  /-- logical overflow: sleep `UpdateTimestampStep` and retry -/
  | retryOverflow
deriving DecidableEq, Repr

/-- One iteration of the `GetRespTS` loop body (tso.go lines 293-321):
load the snapshot; on nil/sentinel either wait (still leader) or fail;
otherwise atomically add `count` to the shared logical counter — the
bump is visible in the snapshot even when the iteration then fails —
check the overflow bound, re-check leadership, and return the response.
-/
def getRespTSAttempt (st : TSOState) (count : Nat) : TSOState × TSOutcome :=
  match st.ts with
  | none =>
    if leadershipCheck st then (st, .retrySyncWait) else (st, .errNotLeader)
  | some current =>
    if current.physical = zeroTime then
      if leadershipCheck st then (st, .retrySyncWait) else (st, .errNotLeader)
    else
      let newLogical := current.logical + (count : Int)
      let st' := { st with ts := some ⟨current.physical, newLogical⟩ }
      if newLogical ≥ maxLogical then
        (st', .retryOverflow)
      else if leadershipCheck st = false then
        (st', .errLease)
      else
        (st', .ok ⟨current.physical.tdiv millisecond, newLogical⟩)

/-- The bounded retry loop of `GetRespTS`, in the interference-free
(single-caller) semantics: each retry runs against the state left by the
previous attempt. -/
def getRespTSLoop : Nat → TSOState → Nat → TSOState × TSOutcome
  | 0, st, _ => (st, .errExhausted)
  | i + 1, st, count =>
    let r := getRespTSAttempt st count
    match r.2 with
    | .retrySyncWait => getRespTSLoop i r.1 count
    | .retryOverflow => getRespTSLoop i r.1 count
    | o => (r.1, o)

/-- `GetRespTS` (tso.go lines 282-323): reject `count == 0`, then run up
to `maxRetryCount` iterations. -/
def GetRespTS (st : TSOState) (count : Nat) : TSOState × TSOutcome :=
  if count = 0 then (st, .errCount)
  else getRespTSLoop maxRetryCount st count

/-- Runs a serialization of `GetRespTS` loop iterations against one
oracle state: the list holds the `count` of each iteration in the order
in which their fetch-adds hit the shared counter.  Returns the final
state and each iteration's outcome. -/
def runAttempts : TSOState → List Nat → TSOState × List TSOutcome
  | st, [] => (st, [])
  | st, n :: ns =>
    let r := getRespTSAttempt st n
    let rest := runAttempts r.1 ns
    (rest.1, r.2 :: rest.2)

/-- The physical instant of the currently published snapshot (used only
to state monotonicity; `zeroTime` when nothing is published). -/
def publishedPhysical (st : TSOState) : Int :=
  (st.ts.getD ⟨zeroTime, 0⟩).physical

/-- The durable save point (used only to state monotonicity; `zeroTime`
when the key is absent). -/
def savedPhysical (st : TSOState) : Int :=
  st.saved.getD zeroTime

/-- The state invariant of an armed oracle in a live leader term: a
snapshot is published, a durable save point exists and agrees with the
in-memory mirror, and the save point leads the published physical by at
least `updateTimestampGuard` (I4) and at most `saveInterval`. -/
def Inv (st : TSOState) : Prop :=
  ∃ o s, st.ts = some o ∧ st.saved = some s ∧ st.lastSavedTime = some s ∧
    o.physical + updateTimestampGuard ≤ s ∧ s ≤ o.physical + st.saveInterval

/-- A state-changing operation of a leader term together with its
environment inputs (wall clock, etcd outcomes).  Within the sequential
step semantics the snapshot pointer cannot change between
`ResetUserTimestamp`'s load and its CAS, so the CAS succeeds
(`casOk = true`). -/
inductive Op where
  | syncOp (leadership : Leadership) (now : Int) (loadOk saveOk : Bool)
  | updateOp (now : Int) (saveOk : Bool)
  | resetUserOp (tso : Nat) (saveOk : Bool)

/-- Applies one state-changing operation. -/
def applyOp (st : TSOState) : Op → Option (TSOState × Except String Unit)
  | .syncOp l now loadOk saveOk => some (SyncTimestamp st l now loadOk saveOk)
  | .updateOp now saveOk => UpdateTimestamp st now saveOk
  | .resetUserOp tso saveOk => ResetUserTimestamp st tso saveOk true

/-- The `next` value that the spec's Advance policy chooses from the
previous snapshot and the wall clock (`none` = publish nothing).  This
definition follows the spec's words, to be compared with
`UpdateTimestamp`. -/
def chosenNextSpec (prev : atomicObject) (now : Int) : Option Int :=
  if now - prev.physical > updateTimestampGuard then some now
  else if prev.logical > maxLogical / 2 then some (prev.physical + millisecond)
  else none

/-- The total logical-counter displacement caused by a list of
fetch-adds. -/
def sumCounts : List Nat → Int
  | [] => 0
  | n :: ns => (n : Int) + sumCounts ns

/-- The outcome a `GetRespTS` loop iteration with count `n` produces on
an armed snapshot whose counter holds `cBefore` just before the
iteration's fetch-add (`chk` is the leadership predicate). -/
def attemptOutcome (chk : Bool) (p cBefore : Int) (n : Nat) : TSOutcome :=
  if cBefore + (n : Int) ≥ maxLogical then .retryOverflow
  else if chk = false then .errLease
  else .ok ⟨p.tdiv millisecond, cBefore + (n : Int)⟩

/-- Both oracle references a live term relies on are set: a snapshot is
published and the last-saved mirror holds a value (exactly the state
left by a successful `SyncTimestamp`, and preserved from then on). -/
def Initialized (st : TSOState) : Prop :=
  st.ts.isSome ∧ st.lastSavedTime.isSome

/-- A concrete pre-sync state: fresh process, durable key at
2000000 ms, `saveInterval` 3 s, `maxResetTSGap` 24 h. -/
def stInit : TSOState :=
  ⟨none, none, none, some (2000000 * millisecond), 3000 * millisecond,
    86400000 * millisecond⟩

/-- A concrete armed mid-term state: leader, snapshot (2000000 ms, 0),
save point 2003000 ms mirrored in memory. -/
def stA : TSOState :=
  ⟨some ⟨true⟩, some ⟨2000000 * millisecond, 0⟩,
    some (2003000 * millisecond), some (2003000 * millisecond),
    3000 * millisecond, 86400000 * millisecond⟩

/-- The armed state right after a successful `SyncTimestamp` on
`stInit` at wall clock 2005000 ms: snapshot (2005000 ms, 0). -/
def stB : TSOState :=
  (SyncTimestamp stInit ⟨true⟩ (2005000 * millisecond) true true).1

/-- The unarmed state left by `ResetTimestamp`: sentinel snapshot, no
leadership handle. -/
def Unarmed (st : TSOState) : Prop :=
  st.ts = some ⟨zeroTime, 0⟩ ∧ st.leadership = none

/-- A state reachable by `ResetTimestamp` before any successful durable
save in this process: a (sentinel) snapshot exists but the last-saved
mirror was never stored. -/
def stNoMirror : TSOState :=
  ⟨some ⟨true⟩, some ⟨zeroTime, 0⟩, none, none, 3000 * millisecond,
    86400000 * millisecond⟩

/-- C1: In any single leader term, every state-changing operation
(`SyncTimestamp`, `UpdateTimestamp`, `ResetUserTimestamp`) preserves:
the published snapshot's physical is non-decreasing (I1), the saved
timestamp is non-decreasing across successful durable writes (I2), and
at every publish the saved timestamp is at least the published physical
plus `updateTimestampGuard` (I4) — stated as preservation of `Inv`,
which asserts I4 of the published snapshot at all times. -/
theorem C1_term_invariants (st : TSOState) (op : Op)
    (hInv : Inv st) (hSI : updateTimestampGuard ≤ st.saveInterval) :
    ∃ r, applyOp st op = some r ∧ Inv r.1 ∧
      r.1.saveInterval = st.saveInterval ∧
      publishedPhysical st ≤ publishedPhysical r.1 ∧
      savedPhysical st ≤ savedPhysical r.1 := by
  obtain ⟨o, s, hts, hsaved, hmirror, hlow, hhigh⟩ := hInv
  have hg : updateTimestampGuard = 1000000 := rfl
  have hm : millisecond = 1000000 := rfl
  cases op with
  | syncOp l now loadOk saveOk =>
    refine ⟨_, rfl, ?_⟩
    simp only [SyncTimestamp, loadTimestamp, saveTimestamp, hsaved,
      Option.getD_some]
    cases loadOk with
    | false =>
      simp only [Bool.false_eq_true, if_false]
      refine ⟨⟨o, s, hts, rfl, hmirror, hlow, hhigh⟩, by trivial,
        le_refl _, ?_⟩
      simp [savedPhysical, hsaved]
    | true =>
      simp only [if_true]
      cases saveOk with
      | false =>
        simp only [Bool.false_eq_true, if_false]
        refine ⟨⟨o, s, hts, rfl, hmirror, hlow, hhigh⟩, by trivial,
          le_refl _, ?_⟩
        simp [savedPhysical, hsaved]
      | true =>
        simp only [if_true]
        by_cases hreg : now - s < updateTimestampGuard
        · simp only [hreg, if_true]
          refine ⟨⟨⟨s + updateTimestampGuard, 0⟩, s + updateTimestampGuard +
            st.saveInterval, rfl, rfl, rfl, by dsimp only; omega, by dsimp only; omega⟩, by trivial, ?_, ?_⟩
          · simp only [publishedPhysical, hts, Option.getD_some]
            omega
          · simp only [savedPhysical, hsaved, Option.getD_some]
            omega
        · simp only [hreg, if_false]
          refine ⟨⟨⟨now, 0⟩, now + st.saveInterval, rfl, rfl, rfl,
            by dsimp only; omega, by dsimp only; omega⟩, by trivial, ?_, ?_⟩
          · simp only [publishedPhysical, hts, Option.getD_some]
            omega
          · simp only [savedPhysical, hsaved, Option.getD_some]
            omega
  | updateOp now saveOk =>
    simp only [applyOp, UpdateTimestamp, hts, hmirror]
    by_cases h1 : now - o.physical > updateTimestampGuard
    · simp only [h1, if_true]
      refine ⟨_, rfl, ?_⟩
      simp only [updatePublish, saveTimestamp]
      by_cases h2 : s - now ≤ updateTimestampGuard
      · simp only [h2, if_true]
        cases saveOk with
        | false =>
          simp only [Bool.false_eq_true, if_false]
          exact ⟨⟨o, s, hts, hsaved, hmirror, hlow, hhigh⟩, by trivial,
            le_refl _, le_refl _⟩
        | true =>
          simp only [if_true]
          refine ⟨⟨⟨now, 0⟩, now + st.saveInterval, rfl, rfl, rfl,
            by dsimp only; omega, by dsimp only; omega⟩, by trivial, ?_, ?_⟩
          · simp only [publishedPhysical, hts, Option.getD_some]
            omega
          · simp only [savedPhysical, hsaved, Option.getD_some]
            omega
      · simp only [h2, if_false]
        refine ⟨⟨⟨now, 0⟩, s, rfl, hsaved, hmirror, by dsimp only; omega,
          by dsimp only; omega⟩, by trivial, ?_, ?_⟩
        · simp only [publishedPhysical, hts, Option.getD_some]
          omega
        · simp only [savedPhysical, hsaved, Option.getD_some]
          omega
    · simp only [h1, if_false]
      by_cases h3 : o.logical > maxLogical / 2
      · simp only [h3, if_true]
        refine ⟨_, rfl, ?_⟩
        simp only [updatePublish, saveTimestamp]
        by_cases h2 : s - (o.physical + millisecond) ≤ updateTimestampGuard
        · simp only [h2, if_true]
          cases saveOk with
          | false =>
            simp only [Bool.false_eq_true, if_false]
            exact ⟨⟨o, s, hts, hsaved, hmirror, hlow, hhigh⟩, by trivial,
              le_refl _, le_refl _⟩
          | true =>
            simp only [if_true]
            refine ⟨⟨⟨o.physical + millisecond, 0⟩, o.physical + millisecond +
              st.saveInterval, rfl, rfl, rfl, by dsimp only; omega, by dsimp only; omega⟩, by trivial,
              ?_, ?_⟩
            · simp only [publishedPhysical, hts, Option.getD_some]
              omega
            · simp only [savedPhysical, hsaved, Option.getD_some]
              omega
        · simp only [h2, if_false]
          refine ⟨⟨⟨o.physical + millisecond, 0⟩, s, rfl, hsaved, hmirror,
            by dsimp only; omega, by dsimp only; omega⟩, by trivial, ?_, ?_⟩
          · simp only [publishedPhysical, hts, Option.getD_some]
            omega
          · simp only [savedPhysical, hsaved, Option.getD_some]
            omega
      · simp only [h3, if_false]
        exact ⟨_, rfl, ⟨o, s, hts, hsaved, hmirror, hlow, hhigh⟩, rfl,
          le_refl _, le_refl _⟩
  | resetUserOp tso saveOk =>
    simp only [applyOp, ResetUserTimestamp, hts]
    by_cases hchk : leadershipCheck st = false
    · simp only [hchk, if_true]
      exact ⟨_, rfl, ⟨o, s, hts, hsaved, hmirror, hlow, hhigh⟩, rfl,
        le_refl _, le_refl _⟩
    · simp only [hchk, if_false]
      by_cases hsmall : parseTSPhysical tso + millisecond - o.physical ≤
        3 * updateTimestampGuard
      · simp only [hsmall, if_true]
        exact ⟨_, rfl, ⟨o, s, hts, hsaved, hmirror, hlow, hhigh⟩, rfl,
          le_refl _, le_refl _⟩
      · simp only [hsmall, if_false]
        by_cases hlarge : parseTSPhysical tso + millisecond - o.physical ≥
          st.maxResetTSGap
        · simp only [hlarge, if_true]
          exact ⟨_, rfl, ⟨o, s, hts, hsaved, hmirror, hlow, hhigh⟩, rfl,
            le_refl _, le_refl _⟩
        · simp only [hlarge, if_false, saveTimestamp]
          cases saveOk with
          | false =>
            simp only [Bool.false_eq_true, if_false]
            exact ⟨_, rfl, ⟨o, s, hts, hsaved, hmirror, hlow, hhigh⟩, rfl,
              le_refl _, le_refl _⟩
          | true =>
            simp only [if_true]
            refine ⟨_, rfl, ⟨⟨parseTSPhysical tso + millisecond, 0⟩,
              parseTSPhysical tso + millisecond + st.saveInterval, rfl, rfl,
              rfl, by dsimp only; omega, by dsimp only; omega⟩, by trivial, ?_, ?_⟩
            · simp only [publishedPhysical, hts, Option.getD_some]
              omega
            · simp only [savedPhysical, hsaved, Option.getD_some]
              omega

/-- C3: `SyncTimestamp` computes `next = now()`; if
`next - last < updateTimestampGuard` (`last` being the durable save
point read, zero when absent) it sets `next = last + updateTimestampGuard`;
it durably saves `next + saveInterval`, and only on save success
publishes the snapshot `(physical = next, logical = 0)`.  In particular,
with saved value 2000000 ms, wall clock 1999999.5 ms and a 3 s save
interval, it publishes physical 2000001 ms and saves 2003001 ms. -/
theorem C3_sync_behavior (st : TSOState) (l : Leadership) (now : Int)
    (saveOk : Bool) :
    (SyncTimestamp st l now true saveOk =
      (let last := st.saved.getD zeroTime
       let next := if now - last < updateTimestampGuard then
           last + updateTimestampGuard else now
       if saveOk then
         ({ st with
            leadership := some l,
            lastSavedTime := some (next + st.saveInterval),
            saved := some (next + st.saveInterval),
            ts := some ⟨next, 0⟩ }, .ok ())
       else
         ({ st with leadership := some l },
          .error "save timestamp failed, maybe we lost leader"))) ∧
    SyncTimestamp stInit ⟨true⟩ (1999999 * millisecond + 500000) true true =
      ({ stInit with
         leadership := some ⟨true⟩,
         lastSavedTime := some (2003001 * millisecond),
         saved := some (2003001 * millisecond),
         ts := some ⟨2000001 * millisecond, 0⟩ }, .ok ()) := by
  constructor
  · simp only [SyncTimestamp, loadTimestamp, saveTimestamp, if_true]
    cases saveOk with
    | false => simp
    | true => simp
  · rfl

/-- Publishing branch of `UpdateTimestamp`: when the tail returns
success, the published snapshot is `(next, 0)`. -/
theorem updatePublish_ok_ts (st : TSOState) (s next : Int) (saveOk : Bool)
    (h : (updatePublish st s next saveOk).2 = .ok ()) :
    (updatePublish st s next saveOk).1.ts = some ⟨next, 0⟩ := by
  by_cases h2 : s - next ≤ updateTimestampGuard
  · cases saveOk with
    | false =>
      exfalso
      simp [updatePublish, saveTimestamp, h2] at h
    | true => simp [updatePublish, saveTimestamp, h2]
  · simp [updatePublish, saveTimestamp, h2]

/-- Publishing branch of `UpdateTimestamp`: when the tail fails, the
oracle state is unchanged. -/
theorem updatePublish_err_state (st : TSOState) (s next : Int)
    (saveOk : Bool) (h : (updatePublish st s next saveOk).2 ≠ .ok ()) :
    (updatePublish st s next saveOk).1 = st := by
  by_cases h2 : s - next ≤ updateTimestampGuard
  · cases saveOk with
    | false => simp [updatePublish, saveTimestamp, h2]
    | true => exact absurd (by simp [updatePublish, saveTimestamp, h2]) h
  · exact absurd (by simp [updatePublish, saveTimestamp, h2]) h

/-- `UpdateTimestamp` in the skip branch: nothing chosen, nothing
changed. -/
theorem updateTimestamp_skip (st : TSOState) (prev : atomicObject)
    (now : Int) (saveOk : Bool) (hts : st.ts = some prev)
    (hnone : chosenNextSpec prev now = none) :
    UpdateTimestamp st now saveOk = some (st, .ok ()) := by
  simp only [chosenNextSpec] at hnone
  by_cases h1 : now - prev.physical > updateTimestampGuard
  · rw [if_pos h1] at hnone
    exact absurd hnone (by simp)
  · rw [if_neg h1] at hnone
    by_cases h3 : prev.logical > maxLogical / 2
    · rw [if_pos h3] at hnone
      exact absurd hnone (by simp)
    · simp only [UpdateTimestamp, hts, h1, if_false, h3]

/-- `UpdateTimestamp` when the policy chooses `next`: the result is the
publishing tail `updatePublish`. -/
theorem updateTimestamp_chosen (st : TSOState) (prev : atomicObject)
    (s now next : Int) (saveOk : Bool) (hts : st.ts = some prev)
    (hmirror : st.lastSavedTime = some s)
    (hnext : chosenNextSpec prev now = some next) :
    UpdateTimestamp st now saveOk = some (updatePublish st s next saveOk) := by
  simp only [chosenNextSpec] at hnext
  by_cases h1 : now - prev.physical > updateTimestampGuard
  · rw [if_pos h1] at hnext
    obtain rfl := Option.some.inj hnext
    simp only [UpdateTimestamp, hts, hmirror, h1, if_true]
  · rw [if_neg h1] at hnext
    by_cases h3 : prev.logical > maxLogical / 2
    · rw [if_pos h3] at hnext
      obtain rfl := Option.some.inj hnext
      simp only [UpdateTimestamp, hts, hmirror, h1, if_false, h3, if_true]
    · rw [if_neg h3] at hnext
      exact absurd hnext (by simp)

/-- The publishing tail of `UpdateTimestamp` when a save is required
(the mirror leads `next` by at most the guard) and the durable save
fails: the error propagates and nothing changes. -/
theorem updatePublish_save_fail (st : TSOState) (s next : Int)
    (hneed : s - next ≤ updateTimestampGuard) :
    updatePublish st s next false =
      (st, .error "save timestamp failed, maybe we lost leader") := by
  simp [updatePublish, saveTimestamp, hneed]

/-- C4: `UpdateTimestamp` follows the exhaustive, ordered Advance
policy with `lag = now - prev.physical`: if `lag > updateTimestampGuard`
it chooses `next = now`; else if `prev.logical > maxLogical / 2` it
chooses `next = prev.physical + 1 ms`; else it publishes nothing and
returns without changing any state; whenever `next` is chosen and
published, the new snapshot's logical is 0.  (`chosenNextSpec` states
the spec's choice of `next`; the publishing tail is `updatePublish`,
which publishes exactly when it returns success.) -/
theorem C4_update_policy (st : TSOState) (prev : atomicObject) (s now : Int)
    (saveOk : Bool) (hts : st.ts = some prev)
    (hmirror : st.lastSavedTime = some s) :
    (chosenNextSpec prev now = none →
      UpdateTimestamp st now saveOk = some (st, .ok ())) ∧
    (∀ next, chosenNextSpec prev now = some next →
      UpdateTimestamp st now saveOk = some (updatePublish st s next saveOk) ∧
      ((updatePublish st s next saveOk).2 = .ok () →
        (updatePublish st s next saveOk).1.ts = some ⟨next, 0⟩) ∧
      ((updatePublish st s next saveOk).2 ≠ .ok () →
        (updatePublish st s next saveOk).1 = st)) := by
  exact ⟨fun h => updateTimestamp_skip st prev now saveOk hts h,
    fun next hnext =>
      ⟨updateTimestamp_chosen st prev s now next saveOk hts hmirror hnext,
       fun h => updatePublish_ok_ts st s next saveOk h,
       fun h => updatePublish_err_state st s next saveOk h⟩⟩

/-- Witness for C1: a concrete Advance step from the armed state `stA`
at wall clock 2000100 ms. -/
theorem C1_term_invariants_witness :
    ∃ r, applyOp stA (.updateOp (2000100 * millisecond) true) = some r ∧
      Inv r.1 ∧ r.1.saveInterval = stA.saveInterval ∧
      publishedPhysical stA ≤ publishedPhysical r.1 ∧
      savedPhysical stA ≤ savedPhysical r.1 :=
  C1_term_invariants stA (.updateOp (2000100 * millisecond) true)
    ⟨⟨2000000 * millisecond, 0⟩, 2003000 * millisecond, rfl, rfl, rfl,
      by decide, by decide⟩ (by decide)

/-- Witness for C4: the Advance policy evaluated on the armed state
`stA` at wall clock 2000100 ms. -/
theorem C4_update_policy_witness :
    (chosenNextSpec ⟨2000000 * millisecond, 0⟩ (2000100 * millisecond) =
        none →
      UpdateTimestamp stA (2000100 * millisecond) true =
        some (stA, .ok ())) ∧
    (∀ next, chosenNextSpec ⟨2000000 * millisecond, 0⟩
        (2000100 * millisecond) = some next →
      UpdateTimestamp stA (2000100 * millisecond) true =
        some (updatePublish stA (2003000 * millisecond) next true) ∧
      ((updatePublish stA (2003000 * millisecond) next true).2 = .ok () →
        (updatePublish stA (2003000 * millisecond) next true).1.ts =
          some ⟨next, 0⟩) ∧
      ((updatePublish stA (2003000 * millisecond) next true).2 ≠ .ok () →
        (updatePublish stA (2003000 * millisecond) next true).1 = stA)) :=
  C4_update_policy stA ⟨2000000 * millisecond, 0⟩ (2003000 * millisecond)
    (2000100 * millisecond) true rfl rfl

/-- C5: If the durable save fails during `SyncTimestamp` or
`UpdateTimestamp`, the operation returns the error and does not publish
a new snapshot: the previously published snapshot (or its absence) is
retained unchanged, and the in-memory last-saved mirror and the durable
value change only when the durable write succeeds. -/
theorem C5_save_failure (st : TSOState) (l : Leadership) (now : Int)
    (prev : atomicObject) (s : Int) :
    ((SyncTimestamp st l now true false).2 =
        .error "save timestamp failed, maybe we lost leader" ∧
      (SyncTimestamp st l now true false).1.ts = st.ts ∧
      (SyncTimestamp st l now true false).1.lastSavedTime =
        st.lastSavedTime ∧
      (SyncTimestamp st l now true false).1.saved = st.saved) ∧
    (st.ts = some prev → st.lastSavedTime = some s →
      ∀ next, chosenNextSpec prev now = some next →
        s - next ≤ updateTimestampGuard →
        UpdateTimestamp st now false =
          some (st, .error "save timestamp failed, maybe we lost leader")) := by
  constructor
  · by_cases h : now - st.saved.getD zeroTime < updateTimestampGuard <;>
      simp [SyncTimestamp, loadTimestamp, saveTimestamp, h]
  · intro hts hmirror next hnext hneed
    rw [updateTimestamp_chosen st prev s now next false hts hmirror hnext,
      updatePublish_save_fail st s next hneed]

/-- Witness for C5: save failure during Sync from `stInit` and during
Advance from `stA` at wall clock 2002999.5 ms (where the save window
must be extended). -/
theorem C5_save_failure_witness :
    (SyncTimestamp stInit ⟨true⟩ (2000100 * millisecond) true false).2 =
      .error "save timestamp failed, maybe we lost leader" ∧
    UpdateTimestamp stA (2002999 * millisecond + 500000) false =
      some (stA, .error "save timestamp failed, maybe we lost leader") :=
  ⟨(C5_save_failure stInit ⟨true⟩ (2000100 * millisecond)
      ⟨2000000 * millisecond, 0⟩ (2003000 * millisecond)).1.1,
   (C5_save_failure stA ⟨true⟩ (2002999 * millisecond + 500000)
      ⟨2000000 * millisecond, 0⟩ (2003000 * millisecond)).2 rfl rfl
      (2002999 * millisecond + 500000) (by decide) (by decide)⟩

/-- C6: `ResetUserTimestamp`, with `next` the unpacked physical plus
1 ms and `prev` the current snapshot, returns an error without saving
or publishing when the caller is not leader, when
`next - prev.physical ≤ 3 × updateTimestampGuard` (too small), or when
`next - prev.physical ≥ maxResetTSGap` (too large). -/
theorem C6_reset_user_rejections (st : TSOState) (tso : Nat)
    (prev : atomicObject) (saveOk casOk : Bool)
    (hts : st.ts = some prev) :
    (leadershipCheck st = false →
      ResetUserTimestamp st tso saveOk casOk =
        some (st, .error "Setup timestamp failed, lease expired")) ∧
    (leadershipCheck st = true →
      parseTSPhysical tso + millisecond - prev.physical ≤
        3 * updateTimestampGuard →
      ResetUserTimestamp st tso saveOk casOk =
        some (st, .error "the specified ts too small than now")) ∧
    (leadershipCheck st = true →
      3 * updateTimestampGuard <
        parseTSPhysical tso + millisecond - prev.physical →
      parseTSPhysical tso + millisecond - prev.physical ≥
        st.maxResetTSGap →
      ResetUserTimestamp st tso saveOk casOk =
        some (st, .error "the specified ts too large than now")) := by
  refine ⟨fun hchk => ?_, fun hchk hsmall => ?_, fun hchk hsmall hlarge => ?_⟩
  · simp [ResetUserTimestamp, hchk]
  · simp [ResetUserTimestamp, hchk, hts, hsmall]
  · simp only [ResetUserTimestamp, hchk, Bool.true_eq_false, if_false, hts]
    rw [if_neg (by omega), if_pos hlarge]

/-- Witness for C6: on `stA`, a reset to physical 2000001 ms is
rejected as too small, one to physical 100000000000 ms (beyond the 24 h
gap) as too large, and any reset without leadership fails. -/
theorem C6_reset_user_rejections_witness :
    ResetUserTimestamp stA 524288262144 true true =
      some (stA, .error "the specified ts too small than now") ∧
    ResetUserTimestamp stA 26214400000000000 true true =
      some (stA, .error "the specified ts too large than now") ∧
    ResetUserTimestamp (ResetTimestamp stA) 524288262144 true true =
      some (ResetTimestamp stA,
        .error "Setup timestamp failed, lease expired") :=
  ⟨(C6_reset_user_rejections stA 524288262144 ⟨2000000 * millisecond, 0⟩
      true true rfl).2.1 rfl (by decide),
   (C6_reset_user_rejections stA 26214400000000000
      ⟨2000000 * millisecond, 0⟩ true true rfl).2.2 rfl (by decide)
      (by decide),
   (C6_reset_user_rejections (ResetTimestamp stA) 524288262144
      ⟨zeroTime, 0⟩ true true rfl).1 rfl⟩

/-- C7 counterexample: on the armed state `stA`, an accepted reset to
physical 2000100 ms whose CAS fails (the snapshot changed concurrently)
still returns success — `.ok ()`, not a conflict error — and leaves the
snapshot pointer unreplaced, refuting "the call reports a conflict
error rather than success" (the Go code ignores the result of
`CompareAndSwapPointer`, tso.go line 197). -/
theorem C7_cas_failure_counterexample :
    ResetUserTimestamp stA 524314214400 true false =
      some ({ stA with
              lastSavedTime := some (2003101 * millisecond),
              saved := some (2003101 * millisecond) }, .ok ()) ∧
    ({ stA with
       lastSavedTime := some (2003101 * millisecond),
       saved := some (2003101 * millisecond) } : TSOState).ts = stA.ts :=
  ⟨rfl, rfl⟩

/-- C7 (amended): when `ResetUserTimestamp` accepts and the durable
save succeeds, it compare-and-swaps the snapshot pointer from `prev` to
`(physical = next, logical = 0)`; the CAS result is ignored, so the
call returns success whether or not the CAS succeeded, and on a failed
CAS the snapshot is simply left as the concurrent writer set it. -/
theorem C7_cas_ignored (st : TSOState) (tso : Nat) (prev : atomicObject)
    (casOk : Bool) (hts : st.ts = some prev)
    (hchk : leadershipCheck st = true)
    (hsmall : 3 * updateTimestampGuard <
      parseTSPhysical tso + millisecond - prev.physical)
    (hlarge : parseTSPhysical tso + millisecond - prev.physical <
      st.maxResetTSGap) :
    ∃ st', ResetUserTimestamp st tso true casOk = some (st', .ok ()) ∧
      st'.saved = some (parseTSPhysical tso + millisecond +
        st.saveInterval) ∧
      st'.lastSavedTime = st'.saved ∧
      (casOk = true →
        st'.ts = some ⟨parseTSPhysical tso + millisecond, 0⟩) ∧
      (casOk = false → st'.ts = st.ts) := by
  simp only [ResetUserTimestamp, hchk, Bool.true_eq_false, if_false, hts,
    saveTimestamp, if_true]
  rw [if_neg (by omega), if_neg (by omega)]
  cases casOk with
  | true => exact ⟨_, rfl, rfl, rfl, fun _ => rfl, by simp⟩
  | false => exact ⟨_, rfl, rfl, rfl, by simp, fun _ => rfl⟩

/-- Witness for the amended C7: the accepted reset of
`C7_cas_failure_counterexample` with a successful CAS. -/
theorem C7_cas_ignored_witness :
    ∃ st', ResetUserTimestamp stA 524314214400 true true =
        some (st', .ok ()) ∧
      st'.saved = some (parseTSPhysical 524314214400 + millisecond +
        stA.saveInterval) ∧
      st'.lastSavedTime = st'.saved ∧
      (true = true →
        st'.ts = some ⟨parseTSPhysical 524314214400 + millisecond, 0⟩) ∧
      (true = false → st'.ts = stA.ts) :=
  C7_cas_ignored stA 524314214400 ⟨2000000 * millisecond, 0⟩ true rfl rfl
    (by decide) (by decide)

/-- C8 counterexample: from the armed state `stB` (published by a
successful `SyncTimestamp`), a single `GetRespTS` loop iteration with
count 300000 leaves the published snapshot's logical counter at
300000 ≥ maxLogical — the counter is fetch-added before the bound is
checked — refuting "at any instant the snapshot's logical is in
`[0, maxLogical)`"; the overflowing request itself is not returned. -/
theorem C8_logical_overflow_counterexample :
    (getRespTSAttempt stB 300000).1.ts =
      some ⟨2005000 * millisecond, 300000⟩ ∧
    maxLogical ≤ 300000 ∧
    (getRespTSAttempt stB 300000).2 = .retryOverflow :=
  ⟨rfl, by decide, rfl⟩

/-- C8 (amended): every logical value returned by a successful
`GetRespTS` iteration on a snapshot whose counter is non-negative lies
in `[0, maxLogical)`, and an iteration whose addition reaches
`maxLogical` is never returned from that snapshot (it yields a retry);
the counter itself, however, is incremented before the check and may
transiently exceed `maxLogical`. -/
theorem C8_logical_bound (st : TSOState) (p c : Int) (n : Nat)
    (t : Timestamp) (hts : st.ts = some ⟨p, c⟩) (hp : p ≠ zeroTime)
    (hc : 0 ≤ c) :
    ((getRespTSAttempt st n).2 = .ok t →
      0 ≤ t.logical ∧ t.logical < maxLogical) ∧
    (maxLogical ≤ c + (n : Int) →
      (getRespTSAttempt st n).2 = .retryOverflow ∧
      ∀ u : Timestamp, (getRespTSAttempt st n).2 ≠ .ok u) := by
  by_cases hov : c + (n : Int) ≥ maxLogical
  · constructor
    · intro hok
      exfalso
      simp [getRespTSAttempt, hts, hp, hov] at hok
    · intro _
      constructor
      · simp [getRespTSAttempt, hts, hp, hov]
      · intro u
        simp [getRespTSAttempt, hts, hp, hov]
  · constructor
    · intro hok
      by_cases hchk : leadershipCheck st = false
      · exfalso
        simp [getRespTSAttempt, hts, hp, hov, hchk] at hok
      · have : t = ⟨p.tdiv millisecond, c + (n : Int)⟩ := by
          have h := hok
          simp [getRespTSAttempt, hts, hp, hov, hchk] at h
          exact h.symm
        subst this
        exact ⟨by simpa using by omega, by simpa using by omega⟩
    · intro h
      exact absurd h hov

/-- Witness for the amended C8: a successful `GetRespTS(5)` iteration
on `stB` returns logical 5, inside the bound. -/
theorem C8_logical_bound_witness :
    (((getRespTSAttempt stB 5).2 = .ok ⟨2005000, 5⟩ →
      0 ≤ (⟨2005000, 5⟩ : Timestamp).logical ∧
      (⟨2005000, 5⟩ : Timestamp).logical < maxLogical) ∧
    (maxLogical ≤ 0 + ((5 : Nat) : Int) →
      (getRespTSAttempt stB 5).2 = .retryOverflow ∧
      ∀ u : Timestamp, (getRespTSAttempt stB 5).2 ≠ .ok u)) ∧
    0 ≤ (⟨2005000, 5⟩ : Timestamp).logical ∧
    (⟨2005000, 5⟩ : Timestamp).logical < maxLogical :=
  ⟨C8_logical_bound stB (2005000 * millisecond) 0 5 ⟨2005000, 5⟩ rfl
      (by decide) (by decide),
   (C8_logical_bound stB (2005000 * millisecond) 0 5 ⟨2005000, 5⟩ rfl
      (by decide) (by decide)).1 rfl⟩

/-- C9 counterexample: immediately after `ResetTimestamp`, the call
`GetRespTS(0)` returns the "tso count should be positive" error, not
the not-leader error — refuting "every GetRespTS call returns a
not-leader error". -/
theorem C9_zero_count_counterexample :
    GetRespTS (ResetTimestamp stB) 0 = (ResetTimestamp stB, .errCount) ∧
    TSOutcome.errCount ≠ TSOutcome.errNotLeader :=
  ⟨rfl, by decide⟩

/-- C9 (amended): `ResetTimestamp` leaves the oracle unarmed (sentinel
snapshot, cleared leadership); in any unarmed state every `GetRespTS`
call with positive count returns the not-leader error (a zero-count
call returns the count error instead), `ResetUserTimestamp` fails
without changing the state, and the unarmed period ends exactly with a
successful `SyncTimestamp`, which publishes a non-sentinel snapshot. -/
theorem C9_after_reset (st st2 : TSOState) (n tso : Nat)
    (saveOk casOk : Bool) (l : Leadership) (now : Int)
    (hu : Unarmed st2) :
    Unarmed (ResetTimestamp st) ∧
    (0 < n → GetRespTS st2 n = (st2, .errNotLeader)) ∧
    (∃ e, ResetUserTimestamp st2 tso saveOk casOk =
      some (st2, .error e)) ∧
    (0 ≤ st2.saved.getD zeroTime → 0 < now →
      (SyncTimestamp st2 l now true true).2 = .ok () ∧
      ∃ next, (SyncTimestamp st2 l now true true).1.ts =
          some ⟨next, 0⟩ ∧ next ≠ zeroTime) := by
  obtain ⟨hts2, hld2⟩ := hu
  have hchk : leadershipCheck st2 = false := by
    simp [leadershipCheck, hld2]
  refine ⟨⟨rfl, rfl⟩, ?_, ?_, ?_⟩
  · intro hn
    have hatt : getRespTSAttempt st2 n = (st2, .errNotLeader) := by
      simp [getRespTSAttempt, hts2, hchk, zeroTime]
    simp only [GetRespTS, if_neg (by omega : ¬n = 0)]
    show getRespTSLoop (9 + 1) st2 n = (st2, .errNotLeader)
    simp only [getRespTSLoop, hatt]
  · refine ⟨"Setup timestamp failed, lease expired", ?_⟩
    simp [ResetUserTimestamp, hchk]
  · intro hs hnow
    have hg : updateTimestampGuard = 1000000 := rfl
    have hz : zeroTime = 0 := rfl
    by_cases hreg : now - st2.saved.getD zeroTime < updateTimestampGuard
    · refine ⟨?_, st2.saved.getD zeroTime + updateTimestampGuard, ?_,
        by omega⟩ <;>
        simp [SyncTimestamp, loadTimestamp, saveTimestamp, hreg]
    · refine ⟨?_, now, ?_, by omega⟩ <;>
        simp [SyncTimestamp, loadTimestamp, saveTimestamp, hreg]

/-- Witness for the amended C9: the unarmed state obtained by resetting
`stB`, probed with `GetRespTS(3)`, a reset request, and a re-sync at
wall clock 2010000 ms. -/
theorem C9_after_reset_witness :
    Unarmed (ResetTimestamp stB) ∧
    (0 < 3 → GetRespTS (ResetTimestamp stB) 3 =
      (ResetTimestamp stB, .errNotLeader)) ∧
    (∃ e, ResetUserTimestamp (ResetTimestamp stB) 524314214400 true true =
      some (ResetTimestamp stB, .error e)) ∧
    (0 ≤ (ResetTimestamp stB).saved.getD zeroTime →
      0 < 2010000 * millisecond →
      (SyncTimestamp (ResetTimestamp stB) ⟨true⟩ (2010000 * millisecond)
          true true).2 = .ok () ∧
      ∃ next, (SyncTimestamp (ResetTimestamp stB) ⟨true⟩
          (2010000 * millisecond) true true).1.ts =
          some ⟨next, 0⟩ ∧ next ≠ zeroTime) :=
  C9_after_reset stB (ResetTimestamp stB) 3 524314214400 true true
    ⟨true⟩ (2010000 * millisecond) ⟨rfl, rfl⟩

theorem sumCounts_nonneg (l : List Nat) : 0 ≤ sumCounts l := by
  induction l with
  | nil => simp [sumCounts]
  | cons n ns ih =>
    simp only [sumCounts]
    omega

theorem sumCounts_take_succ (l : List Nat) (i n : Nat)
    (h : l[i]? = some n) :
    sumCounts (l.take (i + 1)) = sumCounts (l.take i) + n := by
  induction l generalizing i with
  | nil => simp at h
  | cons m ms ih =>
    cases i with
    | zero =>
      simp only [List.getElem?_cons_zero, Option.some.injEq] at h
      subst h
      simp [sumCounts]
    | succ j =>
      simp only [List.getElem?_cons_succ] at h
      simp only [List.take_succ_cons, sumCounts, ih j h]
      omega

theorem sumCounts_take_mono (l : List Nat) {i j : Nat} (h : i ≤ j) :
    sumCounts (l.take i) ≤ sumCounts (l.take j) := by
  induction l generalizing i j with
  | nil => simp
  | cons m ms ih =>
    cases i with
    | zero =>
      simpa [sumCounts] using sumCounts_nonneg ((m :: ms).take j)
    | succ i' =>
      cases j with
      | zero => exact absurd h (by omega)
      | succ j' =>
        simp only [List.take_succ_cons, sumCounts]
        have := ih (i := i') (j := j') (by omega)
        omega

/-- A `GetRespTS` loop iteration on an armed snapshot: the counter is
fetch-added by `count` and the outcome is `attemptOutcome`. -/
theorem getRespTSAttempt_armed (st : TSOState) (p c : Int) (n : Nat)
    (hts : st.ts = some ⟨p, c⟩) (hp : p ≠ zeroTime) :
    getRespTSAttempt st n =
      ({ st with ts := some ⟨p, c + (n : Int)⟩ },
        attemptOutcome (leadershipCheck st) p c n) := by
  simp only [getRespTSAttempt, hts]
  rw [if_neg hp]
  simp only [attemptOutcome]
  split_ifs <;> rfl

theorem attemptOutcome_ok (chk : Bool) (p cB : Int) (n : Nat)
    (t : Timestamp) (h : attemptOutcome chk p cB n = .ok t) :
    t.logical = cB + (n : Int) ∧ cB + (n : Int) < maxLogical ∧
      chk = true := by
  unfold attemptOutcome at h
  by_cases hov : cB + (n : Int) ≥ maxLogical
  · rw [if_pos hov] at h
    exact absurd h (by simp)
  · rw [if_neg hov] at h
    by_cases hchk : chk = false
    · rw [if_pos hchk] at h
      exact absurd h (by simp)
    · rw [if_neg hchk] at h
      cases h
      exact ⟨rfl, by omega, by cases chk <;> simp_all⟩

/-- Running a serialization of loop iterations against an armed
snapshot: the counter accumulates all the fetch-adds, the leadership
handle is untouched, and the `i`-th iteration's outcome is decided by
the counter value `c + sumCounts (counts.take i)` it found. -/
theorem runAttempts_spec (counts : List Nat) (st : TSOState) (p c : Int)
    (hts : st.ts = some ⟨p, c⟩) (hp : p ≠ zeroTime) :
    (runAttempts st counts).1.ts = some ⟨p, c + sumCounts counts⟩ ∧
    (runAttempts st counts).1.leadership = st.leadership ∧
    ∀ i n, counts[i]? = some n →
      (runAttempts st counts).2[i]? =
        some (attemptOutcome (leadershipCheck st) p
          (c + sumCounts (counts.take i)) n) := by
  induction counts generalizing st c with
  | nil =>
    refine ⟨by simpa [runAttempts, sumCounts] using hts, rfl, ?_⟩
    intro i n h
    simp at h
  | cons m ms ih =>
    have hatt := getRespTSAttempt_armed st p c m hts hp
    have hts' : ({ st with ts := some ⟨p, c + (m : Int)⟩ }).ts =
        some ⟨p, c + (m : Int)⟩ := rfl
    obtain ⟨ih1, ih2, ih3⟩ :=
      ih { st with ts := some ⟨p, c + (m : Int)⟩ } (c + (m : Int)) hts'
    refine ⟨?_, ?_, ?_⟩
    · simp only [runAttempts, hatt, ih1, sumCounts, Option.some.injEq,
        atomicObject.mk.injEq]
      exact ⟨trivial, by omega⟩
    · simp only [runAttempts, hatt]
      exact ih2
    · intro i n h
      cases i with
      | zero =>
        simp only [List.getElem?_cons_zero, Option.some.injEq] at h
        subst h
        simp [runAttempts, hatt, sumCounts]
      | succ j =>
        simp only [List.getElem?_cons_succ] at h
        have := ih3 j n h
        simp only [runAttempts, hatt, List.getElem?_cons_succ]
        rw [this]
        simp only [List.take_succ_cons, sumCounts, leadershipCheck]
        rw [show c + (m : Int) + sumCounts (ms.take j) =
          c + ((m : Int) + sumCounts (ms.take j)) from by omega]

/-- One unfolding of the bounded retry loop. -/
theorem getRespTSLoop_succ (k : Nat) (st : TSOState) (m : Nat) :
    getRespTSLoop (k + 1) st m =
      (let r := getRespTSAttempt st m
       match r.2 with
       | .retrySyncWait => getRespTSLoop k r.1 m
       | .retryOverflow => getRespTSLoop k r.1 m
       | o => (r.1, o)) := rfl

/-- A `GetRespTS` call whose first loop iteration succeeds returns that
iteration's response. -/
theorem getRespTS_first_ok (st : TSOState) (m : Nat) (u : Timestamp)
    (hm : 0 < m) (hok : (getRespTSAttempt st m).2 = .ok u) :
    GetRespTS st m = ((getRespTSAttempt st m).1, .ok u) := by
  have hattEq : getRespTSAttempt st m =
      ((getRespTSAttempt st m).1, TSOutcome.ok u) := by
    rw [← hok]
  simp only [GetRespTS, if_neg (by omega : ¬m = 0)]
  show getRespTSLoop (9 + 1) st m = ((getRespTSAttempt st m).1, .ok u)
  rw [getRespTSLoop_succ]
  rw [hattEq]

/-- C2: for every `GetRespTS(n)` loop iteration with `n > 0` that
returns successfully in a serialization of iterations against one
snapshot, the returned logical `L` equals the snapshot's counter after
atomically adding `n` (the counter after the call's prefix of the
serialization), satisfies `L < maxLogical`, and the `n` logical values
`L-n+1 .. L` are owned exclusively by that call: no other successful
iteration of the serialization returns any of them.  A full
`GetRespTS` call returns exactly its successful iteration's response.
-/
theorem C2_exclusive_allocation (st : TSOState) (p c0 : Int)
    (counts : List Nat) (i j ni nj : Nat) (t1 t2 : Timestamp)
    (hts : st.ts = some ⟨p, c0⟩) (hp : p ≠ zeroTime)
    (hpos : ∀ n ∈ counts, 0 < n) (hij : i ≠ j)
    (hni : counts[i]? = some ni) (hnj : counts[j]? = some nj)
    (h1 : (runAttempts st counts).2[i]? = some (.ok t1))
    (h2 : (runAttempts st counts).2[j]? = some (.ok t2)) :
    t1.logical = c0 + sumCounts (counts.take (i + 1)) ∧
    (runAttempts st (counts.take (i + 1))).1.ts = some ⟨p, t1.logical⟩ ∧
    t1.logical < maxLogical ∧
    (∀ x : Int, t1.logical - ni + 1 ≤ x → x ≤ t1.logical →
      ¬(t2.logical - nj + 1 ≤ x ∧ x ≤ t2.logical)) ∧
    (∀ st' m u, 0 < m → (getRespTSAttempt st' m).2 = .ok u →
      GetRespTS st' m = ((getRespTSAttempt st' m).1, .ok u)) := by
  obtain ⟨-, -, hout⟩ := runAttempts_spec counts st p c0 hts hp
  have e1 := hout i ni hni
  have e2 := hout j nj hnj
  rw [h1] at e1
  rw [h2] at e2
  obtain ⟨ht1, hlt1, -⟩ :=
    attemptOutcome_ok _ p _ ni t1 (Option.some.inj e1).symm
  obtain ⟨ht2, hlt2, -⟩ :=
    attemptOutcome_ok _ p _ nj t2 (Option.some.inj e2).symm
  have hsi := sumCounts_take_succ counts i ni hni
  have hsj := sumCounts_take_succ counts j nj hnj
  refine ⟨by omega, ?_, by omega, ?_, ?_⟩
  · obtain ⟨hpre, -, -⟩ :=
      runAttempts_spec (counts.take (i + 1)) st p c0 hts hp
    rw [hpre, ht1, hsi]
    simp only [Option.some.injEq, atomicObject.mk.injEq]
    exact ⟨trivial, by omega⟩
  · rcases Nat.lt_or_ge i j with hlt | hge
    · have key := sumCounts_take_mono counts (show i + 1 ≤ j from hlt)
      rw [hsi] at key
      intro x hx1 hx2 hy
      obtain ⟨hy1, hy2⟩ := hy
      omega
    · have hgt : j < i := by omega
      have key := sumCounts_take_mono counts (show j + 1 ≤ i from hgt)
      rw [hsj] at key
      intro x hx1 hx2 hy
      obtain ⟨hy1, hy2⟩ := hy
      omega
  · exact fun st' m u hm hok => getRespTS_first_ok st' m u hm hok

/-- Witness for C2: the serialization `[5, 3]` on the armed snapshot of
`stB`; the first call returns logical 5, the second logical 8, and
their ranges `1..5` and `6..8` are disjoint. -/
theorem C2_exclusive_allocation_witness :
    ((⟨2005000, 5⟩ : Timestamp).logical =
      0 + sumCounts ([5, 3].take (0 + 1)) ∧
    (runAttempts stB ([5, 3].take (0 + 1))).1.ts =
      some ⟨2005000 * millisecond, (⟨2005000, 5⟩ : Timestamp).logical⟩ ∧
    (⟨2005000, 5⟩ : Timestamp).logical < maxLogical ∧
    (∀ x : Int, (⟨2005000, 5⟩ : Timestamp).logical - 5 + 1 ≤ x →
      x ≤ (⟨2005000, 5⟩ : Timestamp).logical →
      ¬((⟨2005000, 8⟩ : Timestamp).logical - 3 + 1 ≤ x ∧
        x ≤ (⟨2005000, 8⟩ : Timestamp).logical)) ∧
    (∀ st' m u, 0 < m → (getRespTSAttempt st' m).2 = .ok u →
      GetRespTS st' m = ((getRespTSAttempt st' m).1, .ok u))) :=
  C2_exclusive_allocation stB (2005000 * millisecond) 0 [5, 3] 0 1 5 3
    ⟨2005000, 5⟩ ⟨2005000, 8⟩ rfl (by decide)
    (by decide) (by decide) rfl rfl rfl rfl

theorem updatePublish_initialized (st : TSOState) (s next : Int)
    (saveOk : Bool) (hInit : Initialized st) :
    Initialized (updatePublish st s next saveOk).1 := by
  obtain ⟨h1, h2⟩ := hInit
  by_cases hneed : s - next ≤ updateTimestampGuard
  · cases saveOk with
    | false =>
      simp only [updatePublish, hneed, if_true, saveTimestamp,
        Bool.false_eq_true, if_false]
      exact ⟨h1, h2⟩
    | true =>
      simp only [updatePublish, hneed, if_true, saveTimestamp]
      exact ⟨rfl, rfl⟩
  · simp only [updatePublish, hneed, if_false]
    exact ⟨rfl, h2⟩

theorem getRespTSAttempt_initialized (st : TSOState) (n : Nat)
    (hInit : Initialized st) :
    Initialized (getRespTSAttempt st n).1 := by
  obtain ⟨h1, h2⟩ := hInit
  cases hts : st.ts with
  | none => simp [hts] at h1
  | some o =>
    simp only [getRespTSAttempt, hts]
    by_cases hz : o.physical = zeroTime
    · simp only [hz, if_true]
      split_ifs <;> exact ⟨by rw [hts]; rfl, h2⟩
    · rw [if_neg hz]
      split_ifs <;> exact ⟨rfl, h2⟩

theorem getRespTSLoop_initialized (k : Nat) (st : TSOState) (n : Nat)
    (hInit : Initialized st) :
    Initialized (getRespTSLoop k st n).1 := by
  induction k generalizing st with
  | zero => exact hInit
  | succ k ih =>
    rw [getRespTSLoop_succ]
    have hstep := getRespTSAttempt_initialized st n hInit
    rcases hv : (getRespTSAttempt st n).2 with t | _ | _ | _ | _ | _ | _ <;>
      simp only [hv] <;>
      first
      | exact ih _ hstep
      | exact hstep

/-- C10: `UpdateTimestamp` is total only under the precondition that a
successful `SyncTimestamp` happened earlier in the process lifetime:
called with a nil snapshot pointer it crashes (result `none`), and when
no durable save has ever succeeded, its unguarded type assertion on the
last-saved mirror fails whenever a `next` is chosen; under the
precondition (a successful sync makes both references set, and every
later operation keeps them set) both reads are defined and the call
returns a result. -/
theorem C10_update_preconditions (st : TSOState) (prev : atomicObject)
    (s now : Int) (saveOk : Bool) (op : Op) (n : Nat) (l : Leadership)
    (now2 : Int) :
    (st.ts = none → UpdateTimestamp st now saveOk = none) ∧
    (st.ts = some prev → st.lastSavedTime = none →
      (chosenNextSpec prev now).isSome →
      UpdateTimestamp st now saveOk = none) ∧
    (st.ts = some prev → st.lastSavedTime = some s →
      (UpdateTimestamp st now saveOk).isSome) ∧
    ((SyncTimestamp st l now2 true true).1.ts.isSome ∧
      (SyncTimestamp st l now2 true true).1.lastSavedTime.isSome) ∧
    (Initialized st → ∀ r, applyOp st op = some r → Initialized r.1) ∧
    (Initialized st → Initialized (ResetTimestamp st)) ∧
    (Initialized st → Initialized (GetRespTS st n).1) := by
  refine ⟨?_, ?_, ?_, ?_, ?_, ?_, ?_⟩
  · intro h
    simp [UpdateTimestamp, h]
  · intro hts hmir hsome
    simp only [chosenNextSpec] at hsome
    simp only [UpdateTimestamp, hts, hmir]
    by_cases h1 : now - prev.physical > updateTimestampGuard
    · simp [h1]
    · by_cases h3 : prev.logical > maxLogical / 2
      · simp [h1, h3]
      · rw [if_neg h1, if_neg h3] at hsome
        simp at hsome
  · intro hts hmir
    simp only [UpdateTimestamp, hts, hmir]
    by_cases h1 : now - prev.physical > updateTimestampGuard
    · simp [h1]
    · by_cases h3 : prev.logical > maxLogical / 2 <;> simp [h1, h3]
  · by_cases hreg : now2 - st.saved.getD zeroTime < updateTimestampGuard <;>
      exact ⟨by simp [SyncTimestamp, loadTimestamp, saveTimestamp, hreg],
        by simp [SyncTimestamp, loadTimestamp, saveTimestamp, hreg]⟩
  · intro hInit r happ
    obtain ⟨h1, h2⟩ := hInit
    cases op with
    | syncOp l' now' loadOk saveOk' =>
      simp only [applyOp] at happ
      cases loadOk with
      | false =>
        obtain rfl : r = ({ st with leadership := some l' },
            .error "load timestamp error") := by
          simpa [SyncTimestamp, loadTimestamp] using happ.symm
        exact ⟨h1, h2⟩
      | true =>
        cases saveOk' with
        | false =>
          by_cases hreg : now' - st.saved.getD zeroTime <
              updateTimestampGuard
          · obtain rfl : r = ({ st with leadership := some l' },
                .error "save timestamp failed, maybe we lost leader") := by
              simpa [SyncTimestamp, loadTimestamp, saveTimestamp, hreg]
                using happ.symm
            exact ⟨h1, h2⟩
          · obtain rfl : r = ({ st with leadership := some l' },
                .error "save timestamp failed, maybe we lost leader") := by
              simpa [SyncTimestamp, loadTimestamp, saveTimestamp, hreg]
                using happ.symm
            exact ⟨h1, h2⟩
        | true =>
          by_cases hreg : now' - st.saved.getD zeroTime <
              updateTimestampGuard
          · obtain rfl := Option.some.inj happ.symm
            simp [SyncTimestamp, loadTimestamp, saveTimestamp, hreg,
              Initialized]
          · obtain rfl := Option.some.inj happ.symm
            simp [SyncTimestamp, loadTimestamp, saveTimestamp, hreg,
              Initialized]
    | updateOp now' saveOk' =>
      obtain ⟨o, ho⟩ := Option.isSome_iff_exists.mp h1
      obtain ⟨sv, hsv⟩ := Option.isSome_iff_exists.mp h2
      simp only [applyOp, UpdateTimestamp, ho, hsv] at happ
      by_cases hlag : now' - o.physical > updateTimestampGuard
      · rw [if_pos hlag] at happ
        obtain rfl := Option.some.inj happ
        exact updatePublish_initialized st sv now' saveOk' ⟨h1, h2⟩
      · rw [if_neg hlag] at happ
        by_cases h3 : o.logical > maxLogical / 2
        · rw [if_pos h3] at happ
          obtain rfl := Option.some.inj happ
          exact updatePublish_initialized st sv (o.physical + millisecond)
            saveOk' ⟨h1, h2⟩
        · rw [if_neg h3] at happ
          obtain rfl := Option.some.inj happ
          exact ⟨h1, h2⟩
    | resetUserOp tso' saveOk' =>
      simp only [applyOp, ResetUserTimestamp] at happ
      by_cases hchk : leadershipCheck st = false
      · rw [if_pos hchk] at happ
        obtain rfl := Option.some.inj happ
        exact ⟨h1, h2⟩
      · rw [if_neg hchk] at happ
        obtain ⟨o, ho⟩ := Option.isSome_iff_exists.mp h1
        simp only [ho] at happ
        by_cases hsmall : parseTSPhysical tso' + millisecond - o.physical ≤
            3 * updateTimestampGuard
        · rw [if_pos hsmall] at happ
          obtain rfl := Option.some.inj happ
          exact ⟨h1, h2⟩
        · rw [if_neg hsmall] at happ
          by_cases hlarge : parseTSPhysical tso' + millisecond - o.physical ≥
              st.maxResetTSGap
          · rw [if_pos hlarge] at happ
            obtain rfl := Option.some.inj happ
            exact ⟨h1, h2⟩
          · rw [if_neg hlarge] at happ
            cases saveOk' with
            | false =>
              simp only [saveTimestamp, Bool.false_eq_true, if_false] at happ
              obtain rfl := Option.some.inj happ
              exact ⟨h1, h2⟩
            | true =>
              simp only [saveTimestamp, if_true] at happ
              obtain rfl := Option.some.inj happ
              exact ⟨rfl, rfl⟩
  · intro hInit
    exact ⟨rfl, hInit.2⟩
  · intro hInit
    by_cases hn : n = 0
    · simpa [GetRespTS, hn] using hInit
    · simp only [GetRespTS, hn, if_false]
      exact getRespTSLoop_initialized maxRetryCount st n hInit

/-- Witness for C10: `UpdateTimestamp` crashes on the fresh state
`stInit` (nil snapshot) and on `stNoMirror` (snapshot but no mirror),
and is defined on the armed state `stA`; `GetRespTS` keeps `stA`
initialized. -/
theorem C10_update_preconditions_witness :
    UpdateTimestamp stInit (2000000 * millisecond) true = none ∧
    UpdateTimestamp stNoMirror (2000000 * millisecond) true = none ∧
    (UpdateTimestamp stA (2000100 * millisecond) true).isSome ∧
    Initialized (GetRespTS stA 5).1 :=
  ⟨(C10_update_preconditions stInit ⟨zeroTime, 0⟩ 0 (2000000 * millisecond)
      true (.updateOp 0 true) 5 ⟨true⟩ 0).1 rfl,
   (C10_update_preconditions stNoMirror ⟨zeroTime, 0⟩ 0
      (2000000 * millisecond) true (.updateOp 0 true) 5 ⟨true⟩ 0).2.1 rfl
      rfl (by decide),
   (C10_update_preconditions stA ⟨2000000 * millisecond, 0⟩
      (2003000 * millisecond) (2000100 * millisecond) true
      (.updateOp 0 true) 5 ⟨true⟩ 0).2.2.1 rfl rfl,
   (C10_update_preconditions stA ⟨2000000 * millisecond, 0⟩
      (2003000 * millisecond) (2000100 * millisecond) true
      (.updateOp 0 true) 5 ⟨true⟩ 0).2.2.2.2.2.2 ⟨rfl, rfl⟩⟩

end Tso
